import Mathlib

/-!
Verification development for the shopping-list core: a shallow embedding of
the unit-conversion and quantity-arithmetic subsystem (main/units.py), the
Ingredient type (main/ingredient.py) and the ShoppingList aggregator
(main/shopping_list.py), with theorems settling the stated properties.

Python floats are modelled as rationals, Python exceptions as
Except String, and Python dicts (which preserve insertion order, keep the
position of an existing key on update and append new keys at the end) as
association lists with Python-dict update semantics.
-/

namespace ShopSpec

/-- Enumeration for count-based units (class CountUnit in units.py). -/
inductive CountUnit
  | ITEM
deriving DecidableEq

/-- Enumeration for volume-based units (class VolumeUnit in units.py). -/
inductive VolumeUnit
  | CUP
  | TABLESPOON
  | TEASPOON
  | OUNCE
deriving DecidableEq

/-- Enumeration for mass-based units (class MassUnit in units.py). -/
inductive MassUnit
  | POUND
  | OUNCE
  | GRAM
  | MILLIGRAM
  | KILOGRAM
deriving DecidableEq

/-- A unit value is a member of exactly one of the three Python enum classes. -/
inductive PyUnit
  | count (u : CountUnit)
  | volume (u : VolumeUnit)
  | mass (u : MassUnit)
deriving DecidableEq

/-- The kind of a unit: the Python class the enum member belongs to. -/
inductive UnitKind
  | Count
  | Volume
  | Mass
deriving DecidableEq

def PyUnit.kind : PyUnit → UnitKind
  | .count _ => .Count
  | .volume _ => .Volume
  | .mass _ => .Mass

/-- The .value attribute of a CountUnit member. -/
def CountUnit.value : CountUnit → Nat
  | .ITEM => 0

/-- The .value attribute of a VolumeUnit member. -/
def VolumeUnit.value : VolumeUnit → Nat
  | .CUP => 0
  | .TABLESPOON => 1
  | .TEASPOON => 2
  | .OUNCE => 3

/-- The .value attribute of a MassUnit member. -/
def MassUnit.value : MassUnit → Nat
  | .POUND => 0
  | .OUNCE => 1
  | .GRAM => 2
  | .MILLIGRAM => 3
  | .KILOGRAM => 4

/-- The .name attribute of a CountUnit member. -/
def CountUnit.enumName : CountUnit → String
  | .ITEM => "ITEM"

/-- The .name attribute of a VolumeUnit member. -/
def VolumeUnit.enumName : VolumeUnit → String
  | .CUP => "CUP"
  | .TABLESPOON => "TABLESPOON"
  | .TEASPOON => "TEASPOON"
  | .OUNCE => "OUNCE"

/-- The .name attribute of a MassUnit member. -/
def MassUnit.enumName : MassUnit → String
  | .POUND => "POUND"
  | .OUNCE => "OUNCE"
  | .GRAM => "GRAM"
  | .MILLIGRAM => "MILLIGRAM"
  | .KILOGRAM => "KILOGRAM"

/-- The .name attribute of a unit value. -/
def PyUnit.enumName : PyUnit → String
  | .count u => u.enumName
  | .volume u => u.enumName
  | .mass u => u.enumName

/-- The name of the Python class of a unit value (used in error messages). -/
def UnitKind.className : UnitKind → String
  | .Count => "CountUnit"
  | .Volume => "VolumeUnit"
  | .Mass => "MassUnit"

/-- Python str.upper: upper-case every character. Defined by mapping over the
character list so that it evaluates by structural reduction. -/
def pyUpper (s : String) : String :=
  ⟨s.data.map Char.toUpper⟩

/-- Python str.lower: lower-case every character. Defined by mapping over the
character list so that it evaluates by structural reduction. -/
def pyLower (s : String) : String :=
  ⟨s.data.map Char.toLower⟩

/-- VOLUME_TABLE from units.py, with the float entries read as rationals. -/
def VOLUME_TABLE : List (List ℚ) :=
  [[1, 16, 48, 8],
   [1 / 16, 1, 3, 1 / 2],
   [1 / 48, 1 / 3, 1, 1 / 6],
   [1 / 8, 2, 6, 1]]

/-- MASS_TABLE from units.py, with the decimal float entries read as rationals. -/
def MASS_TABLE : List (List ℚ) :=
  [[1, 16, 453592 / 1000, 453592, 453592 / 1000000],
   [1 / 16, 1, 283495 / 10000, 283495 / 10, 283495 / 10000000],
   [1000 / 453592, 10000 / 283495, 1, 1000, 1 / 1000],
   [1 / 453592, 10 / 283495, 1 / 1000, 1, 1 / 1000000],
   [220462 / 100000, 35274 / 1000, 1000, 1000000, 1]]

/-- Indexing table[i][j]; both indices are always in range at every call site. -/
def tableEntry (table : List (List ℚ)) (i j : Nat) : ℚ :=
  (table.getD i []).getD j 0

/-- convert_count from units.py. The source raises for unsupported pairs; the
branch is unreachable for the typed enum but is kept to mirror the code. -/
def convert_count (from_unit to_unit : CountUnit) (amount : ℚ) : Except String ℚ :=
  if from_unit = to_unit then .ok amount
  else if from_unit = CountUnit.ITEM ∧ to_unit = CountUnit.ITEM then .ok amount
  else .error "Conversion between count units is not supported yet"

/-- convert_volume from units.py: identity on equal units, otherwise a
VOLUME_TABLE lookup by the .value ordinals. -/
def convert_volume (from_unit to_unit : VolumeUnit) (amount : ℚ) : ℚ :=
  if from_unit = to_unit then amount
  else amount * tableEntry VOLUME_TABLE from_unit.value to_unit.value

/-- convert_mass from units.py: identity on equal units, otherwise a
MASS_TABLE lookup by the .value ordinals. -/
def convert_mass (from_unit to_unit : MassUnit) (amount : ℚ) : ℚ :=
  if from_unit = to_unit then amount
  else amount * tableEntry MASS_TABLE from_unit.value to_unit.value

/-- convert_unit from units.py: identity on equal units, a ValueError when the
units belong to different enum classes, otherwise dispatch on the class. -/
def convert_unit (from_unit to_unit : PyUnit) (amount : ℚ) : Except String ℚ :=
  if from_unit = to_unit then .ok amount
  else if from_unit.kind ≠ to_unit.kind then
    .error ("Cannot convert between " ++ from_unit.kind.className ++ " and "
      ++ to_unit.kind.className)
  else
    match from_unit, to_unit with
    | .volume f, .volume t => .ok (convert_volume f t amount)
    | .mass f, .mass t => .ok (convert_mass f t amount)
    | .count f, .count t => convert_count f t amount
    | _, _ => .error "Unsupported unit type"

/-- Quantity from units.py: a unit together with an amount. -/
structure Quantity where
  unit : PyUnit
  amount : ℚ
deriving DecidableEq

/-- Quantity.convert from units.py: convert from_quantity to the unit of
to_quantity, raising when the unit classes differ. -/
def Quantity.convert (from_quantity to_quantity : Quantity) : Except String Quantity :=
  if from_quantity.unit.kind ≠ to_quantity.unit.kind then
    .error ("Cannot convert " ++ from_quantity.unit.kind.className ++ " to "
      ++ to_quantity.unit.kind.className)
  else
    match convert_unit from_quantity.unit to_quantity.unit from_quantity.amount with
    | .ok converted_amount => .ok ⟨to_quantity.unit, converted_amount⟩
    | .error e => .error e

/-- Quantity.__add__ from units.py: raise when the unit classes differ; when
the units differ (same class) convert other into the unit of self first; the
result carries the unit of self. -/
def Quantity.add (self other : Quantity) : Except String Quantity :=
  if self.unit.kind ≠ other.unit.kind then
    .error ("Cannot add " ++ self.unit.kind.className ++ " to "
      ++ other.unit.kind.className)
  else
    match (if self.unit = other.unit then .ok other else Quantity.convert other self :
        Except String Quantity) with
    | .ok converted_other => .ok ⟨self.unit, self.amount + converted_other.amount⟩
    | .error e => .error e

/-- Quantity.__sub__ from units.py, symmetric to add with subtraction. -/
def Quantity.sub (self other : Quantity) : Except String Quantity :=
  if self.unit.kind ≠ other.unit.kind then
    .error ("Cannot subtract " ++ other.unit.kind.className ++ " from "
      ++ self.unit.kind.className)
  else
    match (if self.unit = other.unit then .ok other else Quantity.convert other self :
        Except String Quantity) with
    | .ok converted_other => .ok ⟨self.unit, self.amount - converted_other.amount⟩
    | .error e => .error e

/-- Quantity.__eq__ from units.py: False when the unit classes differ, amount
comparison when the units are equal, False otherwise. -/
def Quantity.pyEq (self other : Quantity) : Bool :=
  if self.unit.kind ≠ other.unit.kind then false
  else if self.unit = other.unit then decide (self.amount = other.amount)
  else false

/-- The dict produced by Quantity.to_dict. -/
structure QuantityDict where
  unit : String
  amount : ℚ
deriving DecidableEq

/-- Quantity.to_dict from units.py: the lower-cased member name and the amount. -/
def Quantity.to_dict (self : Quantity) : QuantityDict :=
  ⟨pyLower self.unit.enumName, self.amount⟩

/-- Enum member lookup VolumeUnit[s] from Python. -/
def VolumeUnit.fromMemberName : String → Option VolumeUnit
  | "CUP" => some .CUP
  | "TABLESPOON" => some .TABLESPOON
  | "TEASPOON" => some .TEASPOON
  | "OUNCE" => some .OUNCE
  | _ => none

/-- Enum member lookup MassUnit[s] from Python. -/
def MassUnit.fromMemberName : String → Option MassUnit
  | "POUND" => some .POUND
  | "OUNCE" => some .OUNCE
  | "GRAM" => some .GRAM
  | "MILLIGRAM" => some .MILLIGRAM
  | "KILOGRAM" => some .KILOGRAM
  | _ => none

/-- Enum member lookup CountUnit[s] from Python. -/
def CountUnit.fromMemberName : String → Option CountUnit
  | "ITEM" => some .ITEM
  | _ => none

/-- Quantity.from_args from units.py: try the upper-cased unit string against
VolumeUnit, then MassUnit, then CountUnit, in that order; raise when none
matches. -/
def Quantity.from_args (unit_str : String) (amount : ℚ) : Except String Quantity :=
  match VolumeUnit.fromMemberName (pyUpper unit_str) with
  | some u => .ok ⟨.volume u, amount⟩
  | none =>
    match MassUnit.fromMemberName (pyUpper unit_str) with
    | some u => .ok ⟨.mass u, amount⟩
    | none =>
      match CountUnit.fromMemberName (pyUpper unit_str) with
      | some u => .ok ⟨.count u, amount⟩
      | none => .error ("Unknown unit: " ++ unit_str)

/-- Quantity.from_dict from units.py: upper-case the stored unit string and
delegate to from_args. -/
def Quantity.from_dict (d : QuantityDict) : Except String Quantity :=
  Quantity.from_args (pyUpper d.unit) d.amount

/-- Quantity.copy from units.py: a fresh Quantity with the same unit and amount. -/
def Quantity.copy (self : Quantity) : Quantity :=
  ⟨self.unit, self.amount⟩

/-- Ingredient from ingredient.py: a named Quantity. -/
structure Ingredient where
  name : String
  quantity : Quantity
deriving DecidableEq

/-- Ingredient.__add__ from ingredient.py: the assert raises when the names
differ (exact string comparison); otherwise the quantities are combined and
the result keeps the name of self. -/
def Ingredient.add (self other : Ingredient) : Except String Ingredient :=
  if self.name ≠ other.name then
    .error ("Cannot add ingredients with different names: " ++ self.name
      ++ " and " ++ other.name)
  else
    match Quantity.add self.quantity other.quantity with
    | .ok q => .ok ⟨self.name, q⟩
    | .error e => .error e

/-- The dict produced by Ingredient.to_dict with flatten=False. -/
structure IngredientDict where
  name : String
  quantity : QuantityDict
deriving DecidableEq

/-- Ingredient.to_dict with flatten=False from ingredient.py: the name and the
nested quantity dict. -/
def Ingredient.to_dict (self : Ingredient) : IngredientDict :=
  ⟨self.name, self.quantity.to_dict⟩

/-- Ingredient.from_dict from ingredient.py: rebuild the quantity from the
nested dict and keep the stored name. -/
def Ingredient.from_dict (d : IngredientDict) : Except String Ingredient :=
  match Quantity.from_dict d.quantity with
  | .ok q => .ok ⟨d.name, q⟩
  | .error e => .error e

/-- Ingredient.from_args from ingredient.py. -/
def Ingredient.from_args (name units : String) (amount : ℚ) : Except String Ingredient :=
  match Quantity.from_args units amount with
  | .ok q => .ok ⟨name, q⟩
  | .error e => .error e

/-- Ingredient.copy from ingredient.py: same name, copied quantity. -/
def Ingredient.copy (self : Ingredient) : Ingredient :=
  ⟨self.name, self.quantity.copy⟩

/-!
Python dicts preserve insertion order: updating an existing key keeps its
position and inserting a new key appends it. dictSet and dictPop give an
association list exactly those semantics.
-/

/-- Assignment d[k] = v with Python dict ordering. -/
def dictSet {α : Type} (k : String) (v : α) : List (String × α) → List (String × α)
  | [] => [(k, v)]
  | (k2, v2) :: rest => if k2 = k then (k, v) :: rest else (k2, v2) :: dictSet k v rest

/-- Removal d.pop(k, None) with Python dict ordering. -/
def dictPop {α : Type} (k : String) : List (String × α) → List (String × α)
  | [] => []
  | (k2, v2) :: rest => if k2 = k then rest else (k2, v2) :: dictPop k rest

/-- One recipe bucket: ingredient name to Ingredient, in insertion order. -/
abbrev Bucket := List (String × Ingredient)

/-- ShoppingList from shopping_list.py: recipe name to bucket, in insertion
order. -/
structure ShoppingList where
  recipe_ingredients : List (String × Bucket)
deriving DecidableEq

/-- The generator feeding ShoppingList.ingredients: every ingredient of every
bucket, buckets in insertion order and, inside a bucket, names in insertion
order. -/
def ShoppingList.flatIngredients (self : ShoppingList) : List Ingredient :=
  (self.recipe_ingredients.map (fun b => b.2.map Prod.snd)).flatten

/-- The accumulation loop of ShoppingList.ingredients: a not yet seen name is
deep-copied into the result dict, an already seen name is combined with the
stored entry via Ingredient addition (an exception propagates). -/
def combineFold : List (String × Ingredient) → List Ingredient →
    Except String (List (String × Ingredient))
  | acc, [] => .ok acc
  | acc, ing :: rest =>
    match acc.lookup ing.name with
    | some existing =>
      match Ingredient.add existing ing with
      | .ok combined => combineFold (dictSet ing.name combined acc) rest
      | .error e => .error e
    | none => combineFold (dictSet ing.name ing.copy acc) rest

/-- ShoppingList.ingredients from shopping_list.py: the combined view, built
fresh from the current buckets. -/
def ShoppingList.ingredients (self : ShoppingList) : Except String (List (String × Ingredient)) :=
  combineFold [] self.flatIngredients

/-- ShoppingList.add_ingredient from shopping_list.py, with the mutation order
of the source kept: the unit string is resolved first (raising before any
mutation), a missing bucket is then created, and only then is the combine
attempted, so a combine failure leaves the created bucket behind only when it
pre-existed (it always did, since the name was found in it). The returned pair
is the state as mutated so far together with the outcome. -/
def ShoppingList.add_ingredient (self : ShoppingList) (name units : String)
    (amount : ℚ) (recipe_name : String) : ShoppingList × Except String Unit :=
  match Ingredient.from_args name units amount with
  | .error e => (self, .error e)
  | .ok ingredient =>
    let s1 : ShoppingList :=
      if (self.recipe_ingredients.lookup recipe_name).isNone then
        ⟨dictSet recipe_name [] self.recipe_ingredients⟩
      else self
    let bucket := (s1.recipe_ingredients.lookup recipe_name).getD []
    match bucket.lookup ingredient.name with
    | some existing =>
      match Ingredient.add existing ingredient with
      | .ok combined =>
        (⟨dictSet recipe_name (dictSet ingredient.name combined bucket)
            s1.recipe_ingredients⟩, .ok ())
      | .error e => (s1, .error e)
    | none =>
      (⟨dictSet recipe_name (dictSet ingredient.name ingredient bucket)
          s1.recipe_ingredients⟩, .ok ())

/-- ShoppingList.for_recipe from shopping_list.py: a fresh list holding only
the requested bucket; raises when the bucket is absent or empty (an empty dict
is falsy in Python). -/
def ShoppingList.for_recipe (self : ShoppingList) (recipe_name : String) :
    Except String ShoppingList :=
  let recipe_ingredients := (self.recipe_ingredients.lookup recipe_name).getD []
  if recipe_ingredients.isEmpty then
    .error ("No ingredients found for recipe: " ++ recipe_name)
  else .ok ⟨[(recipe_name, recipe_ingredients)]⟩

/-- ShoppingList.remove_recipe from shopping_list.py: pop the bucket, a no-op
when absent. -/
def ShoppingList.remove_recipe (self : ShoppingList) (recipe_name : String) : ShoppingList :=
  ⟨dictPop recipe_name self.recipe_ingredients⟩

deriving instance DecidableEq for Except

/-- The empty shopping list. -/
def emptyList : ShoppingList := ⟨[]⟩

/-- The spec scenario: apple 2 items into r1, apple 3 items into r2, apple 2
items into the default bucket general. -/
def threeAppleAdds : ShoppingList :=
  (((emptyList.add_ingredient "apple" "item" 2 "r1").1.add_ingredient
      "apple" "item" 3 "r2").1.add_ingredient "apple" "item" 2 "general").1

/-- The spec scenario extended with a banana that exists only in bucket r2. -/
def applesAndBanana : ShoppingList :=
  ((((emptyList.add_ingredient "apple" "item" 2 "r1").1.add_ingredient
      "apple" "item" 3 "r2").1.add_ingredient
      "banana" "item" 1 "r2").1.add_ingredient "apple" "item" 2 "general").1

/-- One step of the per-name decomposition of the combined view: a first
occurrence is deep-copied, a later one is combined with the running entry. -/
def stepName (cur : Option Ingredient) (i : Ingredient) : Except String (Option Ingredient) :=
  match cur with
  | none => .ok (some i.copy)
  | some e =>
    match Ingredient.add e i with
    | .ok combined => .ok (some combined)
    | .error e2 => .error e2

/-- Folding stepName over the occurrences of one name. -/
def perNameCombine (start : Option Ingredient) : List Ingredient →
    Except String (Option Ingredient)
  | [] => .ok start
  | i :: rest =>
    match stepName start i with
    | .ok cur => perNameCombine cur rest
    | .error e => .error e

/-!
Heap model. The Python objects live on a heap of Quantity cells and both
Ingredient.copy and Ingredient.__add__ allocate a fresh cell, so the map
returned by ShoppingList.ingredients never aliases the quantities stored in
the recipe buckets. The model makes the allocations explicit: an IngRef holds
the name together with the address of its Quantity cell, and the combined-view
loop is replayed on refs.
-/

/-- The heap: Quantity cells addressed by position. -/
structure Heap where
  cells : List Quantity
deriving DecidableEq

/-- Default cell used for the (never exercised) out-of-range read. -/
def defaultQuantity : Quantity := ⟨.count .ITEM, 0⟩

/-- Read the cell at an address. -/
def Heap.read (h : Heap) (a : Nat) : Quantity :=
  h.cells.getD a defaultQuantity

/-- Allocate a fresh cell holding q; its address is the old heap size. -/
def Heap.alloc (h : Heap) (q : Quantity) : Heap × Nat :=
  (⟨h.cells ++ [q]⟩, h.cells.length)

/-- Overwrite the cell at an address (a Python mutation of a Quantity). -/
def Heap.write (h : Heap) (a : Nat) (q : Quantity) : Heap :=
  ⟨h.cells.set a q⟩

/-- An Ingredient object: its name and the address of its Quantity cell. -/
structure IngRef where
  name : String
  qaddr : Nat
deriving DecidableEq

/-- A recipe bucket of the heap model. -/
abbrev BucketH := List (String × IngRef)

/-- The ShoppingList state of the heap model. -/
structure ShoppingListH where
  recipe_ingredients : List (String × BucketH)
deriving DecidableEq

/-- The Ingredient value an IngRef denotes under a heap. -/
def resolveRef (h : Heap) (r : IngRef) : Ingredient :=
  ⟨r.name, h.read r.qaddr⟩

/-- Resolve every entry of a name-to-ref dict. -/
def resolveMap (h : Heap) (l : List (String × IngRef)) : List (String × Ingredient) :=
  l.map (fun p => (p.1, resolveRef h p.2))

/-- The plain ShoppingList value a heap state denotes. -/
def resolveList (h : Heap) (s : ShoppingListH) : ShoppingList :=
  ⟨s.recipe_ingredients.map (fun p => (p.1, resolveMap h p.2))⟩

/-- Ingredient.copy on the heap: read the quantity, allocate a fresh cell. -/
def copyH (h : Heap) (r : IngRef) : Heap × IngRef :=
  let p := h.alloc (h.read r.qaddr)
  (p.1, ⟨r.name, p.2⟩)

/-- Ingredient.__add__ on the heap: read both quantities, combine, allocate a
fresh cell for the result. -/
def addH (h : Heap) (r1 r2 : IngRef) : Except String (Heap × IngRef) :=
  if r1.name ≠ r2.name then
    .error ("Cannot add ingredients with different names: " ++ r1.name
      ++ " and " ++ r2.name)
  else
    match Quantity.add (h.read r1.qaddr) (h.read r2.qaddr) with
    | .ok q =>
      let p := h.alloc q
      .ok (p.1, ⟨r1.name, p.2⟩)
    | .error e => .error e

/-- The accumulation loop of ShoppingList.ingredients on the heap. -/
def combineFoldH : Heap → List (String × IngRef) → List IngRef →
    Except String (Heap × List (String × IngRef))
  | h, acc, [] => .ok (h, acc)
  | h, acc, r :: rest =>
    match acc.lookup r.name with
    | some existing =>
      match addH h existing r with
      | .ok p => combineFoldH p.1 (dictSet r.name p.2 acc) rest
      | .error e => .error e
    | none =>
      let p := copyH h r
      combineFoldH p.1 (dictSet r.name p.2 acc) rest

/-- Every ingredient object of every bucket, in iteration order. -/
def ShoppingListH.flatRefs (s : ShoppingListH) : List IngRef :=
  (s.recipe_ingredients.map (fun b => b.2.map Prod.snd)).flatten

/-- ShoppingList.ingredients on the heap: the returned heap holds the cells
allocated for the result map. -/
def ingredientsH (h : Heap) (s : ShoppingListH) :
    Except String (Heap × List (String × IngRef)) :=
  combineFoldH h [] s.flatRefs

/-- Well-formedness: every address stored in the state is a live cell. -/
def ShoppingListH.WF (h : Heap) (s : ShoppingListH) : Prop :=
  ∀ r ∈ s.flatRefs, r.qaddr < h.cells.length

instance (h : Heap) (s : ShoppingListH) : Decidable (s.WF h) := by
  unfold ShoppingListH.WF
  infer_instance

/-! Dictionary lemmas. -/

theorem lookup_dictSet_self {α : Type} (k : String) (v : α) (l : List (String × α)) :
    (dictSet k v l).lookup k = some v := by
  induction l with
  | nil => simp [dictSet]
  | cons p rest ih =>
    by_cases h : p.1 = k
    · simp [dictSet, h]
    · have hb : (k == p.1) = false := by
        simp only [beq_eq_false_iff_ne, ne_eq]
        exact fun e => h e.symm
      simp [dictSet, h, List.lookup, hb, ih]

theorem lookup_dictSet_ne {α : Type} (k k2 : String) (v : α) (l : List (String × α))
    (h : k2 ≠ k) : (dictSet k v l).lookup k2 = l.lookup k2 := by
  induction l with
  | nil =>
    have hb : (k2 == k) = false := by simp [h]
    simp [dictSet, List.lookup, hb]
  | cons p rest ih =>
    by_cases hp : p.1 = k
    · subst hp
      have hb : (k2 == p.1) = false := by simp [h]
      simp [dictSet, List.lookup, hb]
    · simp [dictSet, hp, List.lookup, ih]

theorem mem_dictSet {α : Type} (k : String) (v : α) (l : List (String × α)) (p : String × α)
    (h : p ∈ dictSet k v l) : p = (k, v) ∨ p ∈ l := by
  induction l with
  | nil => simpa [dictSet] using h
  | cons q rest ih =>
    by_cases hq : q.1 = k
    · simp only [dictSet, hq, if_pos rfl] at h
      rcases List.mem_cons.mp h with h1 | h1
      · exact Or.inl h1
      · exact Or.inr (List.mem_cons_of_mem _ h1)
    · simp only [dictSet, hq, if_neg hq] at h
      rcases List.mem_cons.mp h with h1 | h1
      · exact Or.inr (h1 ▸ List.mem_cons_self _ _)
      · rcases ih h1 with h2 | h2
        · exact Or.inl h2
        · exact Or.inr (List.mem_cons_of_mem _ h2)

/-! Heap and resolution lemmas. -/

theorem lookup_resolveMap (h : Heap) (l : List (String × IngRef)) (k : String) :
    (resolveMap h l).lookup k = (l.lookup k).map (resolveRef h) := by
  induction l with
  | nil => simp [resolveMap]
  | cons p rest ih =>
    by_cases hk : k = p.1
    · simp [resolveMap, List.lookup, hk]
    · have hb : (k == p.1) = false := by simp [hk]
      simp only [resolveMap] at ih
      simp [resolveMap, List.lookup, hb, ih]

theorem resolveMap_dictSet (h : Heap) (k : String) (r : IngRef) (l : List (String × IngRef)) :
    resolveMap h (dictSet k r l) = dictSet k (resolveRef h r) (resolveMap h l) := by
  induction l with
  | nil => simp [dictSet, resolveMap]
  | cons p rest ih =>
    by_cases hp : p.1 = k
    · simp [dictSet, hp, resolveMap]
    · simp only [resolveMap] at ih
      simp [dictSet, hp, resolveMap, ih]

theorem read_append (h : Heap) (ext : List Quantity) (a : Nat) (ha : a < h.cells.length) :
    Heap.read ⟨h.cells ++ ext⟩ a = h.read a := by
  show (h.cells ++ ext).getD a defaultQuantity = h.cells.getD a defaultQuantity
  exact List.getD_append _ _ _ _ ha

theorem read_alloc_new (h : Heap) (q : Quantity) :
    Heap.read ⟨h.cells ++ [q]⟩ h.cells.length = q := by
  simp [Heap.read, List.getD]

theorem read_write_ne (h : Heap) (a b : Nat) (q : Quantity) (hab : a ≠ b) :
    (h.write a q).read b = h.read b := by
  simp [Heap.write, Heap.read, List.getD, List.getElem?_set_ne hab]

theorem resolveRef_append (h : Heap) (ext : List Quantity) (r : IngRef)
    (hr : r.qaddr < h.cells.length) :
    resolveRef ⟨h.cells ++ ext⟩ r = resolveRef h r := by
  simp [resolveRef, read_append h ext _ hr]

theorem resolveMap_append (h : Heap) (ext : List Quantity) (l : List (String × IngRef))
    (hl : ∀ p ∈ l, p.2.qaddr < h.cells.length) :
    resolveMap ⟨h.cells ++ ext⟩ l = resolveMap h l := by
  unfold resolveMap
  apply List.map_congr_left
  intro p hp
  rw [resolveRef_append h ext p.2 (hl p hp)]

theorem map_resolveRef_append (h : Heap) (ext : List Quantity) (l : List IngRef)
    (hl : ∀ r ∈ l, r.qaddr < h.cells.length) :
    l.map (resolveRef ⟨h.cells ++ ext⟩) = l.map (resolveRef h) := by
  apply List.map_congr_left
  intro r hr
  exact resolveRef_append h ext r (hl r hr)

theorem lookup_mem {α : Type} {l : List (String × α)} {k : String} {v : α}
    (h : l.lookup k = some v) : (k, v) ∈ l := by
  induction l with
  | nil => simp [List.lookup] at h
  | cons p rest ih =>
    by_cases hk : k = p.1
    · simp [List.lookup, hk] at h
      subst hk
      cases p
      simp at h ⊢
      exact Or.inl h.symm
    · have hb : (k == p.1) = false := by simp [hk]
      simp [List.lookup, hb] at h
      exact List.mem_cons_of_mem _ (ih h)

theorem quantity_copy_id (q : Quantity) : q.copy = q := rfl

theorem ingredient_copy_id (i : Ingredient) : i.copy = i := rfl
theorem combineFold_cons_none (acc : List (String × Ingredient)) (i : Ingredient)
    (rest : List Ingredient) (hl : acc.lookup i.name = none) :
    combineFold acc (i :: rest) = combineFold (dictSet i.name i.copy acc) rest := by
  simp [combineFold, hl]

theorem combineFold_cons_some_ok (acc : List (String × Ingredient)) (i e c : Ingredient)
    (rest : List Ingredient) (hl : acc.lookup i.name = some e)
    (hadd : Ingredient.add e i = .ok c) :
    combineFold acc (i :: rest) = combineFold (dictSet i.name c acc) rest := by
  simp [combineFold, hl, hadd]

theorem combineFold_cons_some_err (acc : List (String × Ingredient)) (i e : Ingredient)
    (msg : String) (rest : List Ingredient) (hl : acc.lookup i.name = some e)
    (hadd : Ingredient.add e i = .error msg) :
    combineFold acc (i :: rest) = .error msg := by
  simp [combineFold, hl, hadd]

theorem combineFoldH_sound (refs : List IngRef) :
    ∀ (h : Heap) (acc : List (String × IngRef)) (n : Nat),
    (∀ r ∈ refs, r.qaddr < n) →
    n ≤ h.cells.length →
    (∀ p ∈ acc, n ≤ p.2.qaddr ∧ p.2.qaddr < h.cells.length) →
    (∀ e, combineFoldH h acc refs = .error e →
        combineFold (resolveMap h acc) (refs.map (resolveRef h)) = .error e) ∧
    (∀ h2 res, combineFoldH h acc refs = .ok (h2, res) →
        (∃ ext, h2.cells = h.cells ++ ext) ∧
        (∀ p ∈ res, n ≤ p.2.qaddr ∧ p.2.qaddr < h2.cells.length) ∧
        combineFold (resolveMap h acc) (refs.map (resolveRef h)) = .ok (resolveMap h2 res)) := by
  induction refs with
  | nil =>
    intro h acc n hrefs hn hacc
    constructor
    · intro e he
      simp [combineFoldH] at he
    · intro h2 res hok
      simp [combineFoldH] at hok
      obtain ⟨rfl, rfl⟩ := hok
      exact ⟨⟨[], by simp⟩, hacc, by simp [combineFold]⟩
  | cons r rest ih =>
    intro h acc n hrefs hn hacc
    have hrlt : r.qaddr < n := hrefs r (List.mem_cons_self _ _)
    have hrest : ∀ x ∈ rest, x.qaddr < n := fun x hx => hrefs x (List.mem_cons_of_mem _ hx)
    have hraddr : r.qaddr < h.cells.length := lt_of_lt_of_le hrlt hn
    have hrname : (resolveRef h r).name = r.name := rfl
    cases hl : acc.lookup r.name with
    | none =>
      have hstep : combineFoldH h acc (r :: rest) =
          combineFoldH ⟨h.cells ++ [h.read r.qaddr]⟩
            (dictSet r.name ⟨r.name, h.cells.length⟩ acc) rest := by
        simp [combineFoldH, hl, copyH, Heap.alloc]
      have hl2 : (resolveMap h acc).lookup (resolveRef h r).name = none := by
        rw [hrname, lookup_resolveMap, hl]; rfl
      have hpure : combineFold (resolveMap h acc) ((r :: rest).map (resolveRef h)) =
          combineFold (dictSet r.name (resolveRef h r) (resolveMap h acc))
            (rest.map (resolveRef h)) := by
        rw [List.map_cons, combineFold_cons_none _ _ _ hl2, ingredient_copy_id, hrname]
      set h' : Heap := ⟨h.cells ++ [h.read r.qaddr]⟩ with hh'
      set acc' := dictSet r.name ⟨r.name, h.cells.length⟩ acc with hacc'
      have hlen' : h'.cells.length = h.cells.length + 1 := by simp [hh']
      have hn' : n ≤ h'.cells.length := by omega
      have haccb : ∀ p ∈ acc', n ≤ p.2.qaddr ∧ p.2.qaddr < h'.cells.length := by
        intro p hp
        rcases mem_dictSet _ _ _ _ hp with h1 | h1
        · subst h1
          refine ⟨hn, ?_⟩
          show h.cells.length < h'.cells.length
          omega
        · obtain ⟨g2, g3⟩ := hacc p h1
          exact ⟨g2, by omega⟩
      have hresolve : resolveMap h' acc' =
          dictSet r.name (resolveRef h r) (resolveMap h acc) := by
        rw [hacc', resolveMap_dictSet]
        have e1 : resolveRef h' ⟨r.name, h.cells.length⟩ = ⟨r.name, h.read r.qaddr⟩ := by
          simp [resolveRef, hh', read_alloc_new]
        have e2 : resolveMap h' acc = resolveMap h acc := by
          apply resolveMap_append
          intro p hp
          exact (hacc p hp).2
        rw [e1, e2]
        rfl
      have hmaprest : rest.map (resolveRef h') = rest.map (resolveRef h) := by
        apply map_resolveRef_append
        intro x hx
        exact lt_of_lt_of_le (hrest x hx) hn
      obtain ⟨iherr, ihok⟩ := ih h' acc' n hrest hn' haccb
      constructor
      · intro e he
        rw [hstep] at he
        have hres := iherr e he
        rw [hresolve, hmaprest] at hres
        rw [hpure]
        exact hres
      · intro h2 res hok
        rw [hstep] at hok
        obtain ⟨⟨ext, hext⟩, hresb, hcorr⟩ := ihok h2 res hok
        refine ⟨⟨h.read r.qaddr :: ext, by simp [hext, hh']⟩, hresb, ?_⟩
        rw [hresolve, hmaprest] at hcorr
        rw [hpure]
        exact hcorr
    | some existing =>
      have hmem : (r.name, existing) ∈ acc := lookup_mem hl
      obtain ⟨hexge, hexlt⟩ := hacc _ hmem
      have hexlt2 : existing.qaddr < h.cells.length := hexlt
      have hl2 : (resolveMap h acc).lookup (resolveRef h r).name =
          some (resolveRef h existing) := by
        rw [hrname, lookup_resolveMap, hl]; rfl
      by_cases hname : existing.name ≠ r.name
      · have hstep : combineFoldH h acc (r :: rest) =
            .error ("Cannot add ingredients with different names: " ++ existing.name
              ++ " and " ++ r.name) := by
          simp [combineFoldH, hl, addH, hname]
        have hpadd : Ingredient.add (resolveRef h existing) (resolveRef h r) =
            .error ("Cannot add ingredients with different names: " ++ existing.name
              ++ " and " ++ r.name) := by
          simp [Ingredient.add, resolveRef, hname]
        have hpure : combineFold (resolveMap h acc) ((r :: rest).map (resolveRef h)) =
            .error ("Cannot add ingredients with different names: " ++ existing.name
              ++ " and " ++ r.name) := by
          rw [List.map_cons]
          exact combineFold_cons_some_err _ _ _ _ _ hl2 hpadd
        constructor
        · intro e he
          rw [hstep] at he
          injection he with he2
          rw [hpure, he2]
        · intro h2 res hok
          rw [hstep] at hok
          exact absurd hok (by simp)
      · push_neg at hname
        cases hq : Quantity.add (h.read existing.qaddr) (h.read r.qaddr) with
        | error e0 =>
          have hstep : combineFoldH h acc (r :: rest) = .error e0 := by
            simp [combineFoldH, hl, addH, hname, hq]
          have hpadd : Ingredient.add (resolveRef h existing) (resolveRef h r) =
              .error e0 := by
            simp [Ingredient.add, resolveRef, hname, hq]
          have hpure : combineFold (resolveMap h acc) ((r :: rest).map (resolveRef h)) =
              .error e0 := by
            rw [List.map_cons]
            exact combineFold_cons_some_err _ _ _ _ _ hl2 hpadd
          constructor
          · intro e he
            rw [hstep] at he
            injection he with he2
            rw [hpure, he2]
          · intro h2 res hok
            rw [hstep] at hok
            exact absurd hok (by simp)
        | ok q =>
          have hstep : combineFoldH h acc (r :: rest) =
              combineFoldH ⟨h.cells ++ [q]⟩
                (dictSet r.name ⟨existing.name, h.cells.length⟩ acc) rest := by
            simp [combineFoldH, hl, addH, hname, hq, Heap.alloc]
          have hpadd : Ingredient.add (resolveRef h existing) (resolveRef h r) =
              .ok ⟨existing.name, q⟩ := by
            simp [Ingredient.add, resolveRef, hname, hq]
          have hpure : combineFold (resolveMap h acc) ((r :: rest).map (resolveRef h)) =
              combineFold (dictSet r.name ⟨existing.name, q⟩ (resolveMap h acc))
                (rest.map (resolveRef h)) := by
            rw [List.map_cons]
            have hck := combineFold_cons_some_ok _ _ _ _ (rest.map (resolveRef h)) hl2 hpadd
            rw [hrname] at hck
            exact hck
          set h' : Heap := ⟨h.cells ++ [q]⟩ with hh'
          set acc' := dictSet r.name ⟨existing.name, h.cells.length⟩ acc with hacc'
          have hlen' : h'.cells.length = h.cells.length + 1 := by simp [hh']
          have hn' : n ≤ h'.cells.length := by omega
          have haccb : ∀ p ∈ acc', n ≤ p.2.qaddr ∧ p.2.qaddr < h'.cells.length := by
            intro p hp
            rcases mem_dictSet _ _ _ _ hp with h1 | h1
            · subst h1
              refine ⟨hn, ?_⟩
              show h.cells.length < h'.cells.length
              omega
            · obtain ⟨g2, g3⟩ := hacc p h1
              exact ⟨g2, by omega⟩
          have hresolve : resolveMap h' acc' =
              dictSet r.name ⟨existing.name, q⟩ (resolveMap h acc) := by
            rw [hacc', resolveMap_dictSet]
            have e1 : resolveRef h' ⟨existing.name, h.cells.length⟩ =
                ⟨existing.name, q⟩ := by
              simp [resolveRef, hh', read_alloc_new]
            have e2 : resolveMap h' acc = resolveMap h acc := by
              apply resolveMap_append
              intro p hp
              exact (hacc p hp).2
            rw [e1, e2]
          have hmaprest : rest.map (resolveRef h') = rest.map (resolveRef h) := by
            apply map_resolveRef_append
            intro x hx
            exact lt_of_lt_of_le (hrest x hx) hn
          obtain ⟨iherr, ihok⟩ := ih h' acc' n hrest hn' haccb
          constructor
          · intro e he
            rw [hstep] at he
            have hres := iherr e he
            rw [hresolve, hmaprest] at hres
            rw [hpure]
            exact hres
          · intro h2 res hok
            rw [hstep] at hok
            obtain ⟨⟨ext, hext⟩, hresb, hcorr⟩ := ihok h2 res hok
            refine ⟨⟨q :: ext, by simp [hext, hh']⟩, hresb, ?_⟩
            rw [hresolve, hmaprest] at hcorr
            rw [hpure]
            exact hcorr
theorem flatIngredients_resolve (h : Heap) (s : ShoppingListH) :
    (resolveList h s).flatIngredients = s.flatRefs.map (resolveRef h) := by
  simp [ShoppingList.flatIngredients, resolveList, ShoppingListH.flatRefs, resolveMap,
    List.map_flatten, Function.comp_def, List.map_map]

theorem mem_flatRefs {s : ShoppingListH} {r : IngRef}
    (hb : ∃ b ∈ s.recipe_ingredients, ∃ p ∈ b.2, p.2 = r) : r ∈ s.flatRefs := by
  obtain ⟨b, hbmem, p, hpmem, hpr⟩ := hb
  simp only [ShoppingListH.flatRefs, List.mem_flatten, List.mem_map]
  exact ⟨b.2.map Prod.snd, ⟨b, hbmem, rfl⟩, by exact hpr ▸ List.mem_map_of_mem _ hpmem⟩

theorem resolveList_append (h : Heap) (ext : List Quantity) (s : ShoppingListH)
    (hwf : ∀ r ∈ s.flatRefs, r.qaddr < h.cells.length) :
    resolveList ⟨h.cells ++ ext⟩ s = resolveList h s := by
  unfold resolveList
  congr 1
  apply List.map_congr_left
  intro b hb
  congr 1
  apply resolveMap_append
  intro p hp
  exact hwf p.2 (mem_flatRefs ⟨b, hb, p, hp, rfl⟩)

theorem resolveList_write_high (h : Heap) (s : ShoppingListH) (m a : Nat) (q : Quantity)
    (hwf : ∀ r ∈ s.flatRefs, r.qaddr < m) (ha : m ≤ a) :
    resolveList (h.write a q) s = resolveList h s := by
  unfold resolveList
  congr 1
  apply List.map_congr_left
  intro b hb
  congr 1
  unfold resolveMap
  apply List.map_congr_left
  intro p hp
  have hlt : p.2.qaddr < m := hwf p.2 (mem_flatRefs ⟨b, hb, p, hp, rfl⟩)
  have hne : a ≠ p.2.qaddr := by omega
  simp [resolveRef, read_write_ne _ _ _ _ hne]

/-- C8: on a well-formed heap state, a successful call of the combined view
is a pure projection of the current buckets (first conjunct), leaves every
Quantity reachable from the shopping list untouched (second conjunct), returns
only freshly allocated cells (third conjunct), and therefore overwriting any
Quantity of the returned map leaves the shopping list state unchanged (fourth
conjunct). Repeated calls reflect the current buckets because the first
conjunct holds for every well-formed state. -/
theorem C8_ingredients_projection (h : Heap) (s : ShoppingListH)
    (hwf : s.WF h) (h2 : Heap) (res : List (String × IngRef))
    (hok : ingredientsH h s = .ok (h2, res)) :
    (resolveList h s).ingredients = .ok (resolveMap h2 res) ∧
    resolveList h2 s = resolveList h s ∧
    (∀ p ∈ res, h.cells.length ≤ p.2.qaddr) ∧
    (∀ p ∈ res, ∀ q, resolveList (h2.write p.2.qaddr q) s = resolveList h s) := by
  obtain ⟨-, ihok⟩ := combineFoldH_sound s.flatRefs h [] h.cells.length hwf
    (le_refl _) (by simp)
  obtain ⟨⟨ext, hext⟩, hres, hcorr⟩ := ihok h2 res hok
  have h2eq : h2 = ⟨h.cells ++ ext⟩ := by
    cases h2
    simpa using hext
  have hinv : resolveList h2 s = resolveList h s := by
    rw [h2eq]
    exact resolveList_append h ext s hwf
  refine ⟨?_, hinv, ?_, ?_⟩
  · rw [ShoppingList.ingredients, flatIngredients_resolve]
    simpa [resolveMap] using hcorr
  · intro p hp
    exact (hres p hp).1
  · intro p hp q
    have hge : h.cells.length ≤ p.2.qaddr := (hres p hp).1
    rw [resolveList_write_high h2 s h.cells.length p.2.qaddr q hwf hge]
    exact hinv
theorem Quantity.add_ok_unit {a b q : Quantity} (h : Quantity.add a b = .ok q) :
    q.unit = a.unit := by
  unfold Quantity.add at h
  by_cases hk : a.unit.kind ≠ b.unit.kind
  · simp [hk] at h
  · simp only [hk, if_neg, ite_not] at h
    rcases hc : (if a.unit = b.unit then Except.ok b else Quantity.convert b a :
        Except String Quantity) with e | v
    · rw [hc] at h
      simp at h
    · rw [hc] at h
      simp at h
      exact (h.symm ▸ rfl : q.unit = a.unit)

theorem Quantity.add_same_unit (a b : Quantity) (h : a.unit = b.unit) :
    Quantity.add a b = .ok ⟨a.unit, a.amount + b.amount⟩ := by
  have hk : a.unit.kind = b.unit.kind := by rw [h]
  simp [Quantity.add, hk, h]

theorem convert_unit_same_kind_ok (u v : PyUnit) (amt : ℚ) (h : v.kind = u.kind) :
    ∃ c, convert_unit v u amt = .ok c := by
  by_cases he : v = u
  · exact ⟨amt, by simp [convert_unit, he]⟩
  · cases v with
    | volume f =>
      cases u with
      | volume t => exact ⟨convert_volume f t amt, by simp [convert_unit, he, PyUnit.kind]⟩
      | mass t => simp [PyUnit.kind] at h
      | count t => simp [PyUnit.kind] at h
    | mass f =>
      cases u with
      | volume t => simp [PyUnit.kind] at h
      | mass t => exact ⟨convert_mass f t amt, by simp [convert_unit, he, PyUnit.kind]⟩
      | count t => simp [PyUnit.kind] at h
    | count f =>
      cases u with
      | volume t => simp [PyUnit.kind] at h
      | mass t => simp [PyUnit.kind] at h
      | count t =>
        cases f
        cases t
        exact absurd rfl he
theorem Quantity.add_diff_unit (a b : Quantity) (hk : a.unit.kind = b.unit.kind)
    (hu : a.unit ≠ b.unit) :
    ∃ c, convert_unit b.unit a.unit b.amount = .ok c ∧
      Quantity.add a b = .ok ⟨a.unit, a.amount + c⟩ := by
  obtain ⟨c, hc⟩ := convert_unit_same_kind_ok a.unit b.unit b.amount hk.symm
  refine ⟨c, hc, ?_⟩
  have hconv : Quantity.convert b a = .ok ⟨a.unit, c⟩ := by
    simp [Quantity.convert, hk, hc]
  simp [Quantity.add, hk, hu, hconv]

theorem Ingredient.add_ok {a b : Ingredient} {c : Ingredient}
    (h : Ingredient.add a b = .ok c) :
    a.name = b.name ∧ ∃ q, Quantity.add a.quantity b.quantity = .ok q ∧
      c = ⟨a.name, q⟩ := by
  unfold Ingredient.add at h
  by_cases hn : a.name ≠ b.name
  · simp [hn] at h
  · push_neg at hn
    refine ⟨hn, ?_⟩
    simp only [hn, ne_eq, not_true_eq_false, if_false] at h
    rcases hq : Quantity.add a.quantity b.quantity with e | q
    · rw [hq] at h; simp at h
    · rw [hq] at h
      simp at h
      exact ⟨q, rfl, by rw [hn]; exact h.symm⟩
theorem combineFold_perName (refs : List Ingredient) :
    ∀ (acc res : List (String × Ingredient)), combineFold acc refs = .ok res →
    ∀ nm, perNameCombine (acc.lookup nm) (refs.filter (fun i => i.name == nm)) =
      .ok (res.lookup nm) := by
  induction refs with
  | nil =>
    intro acc res hok nm
    simp [combineFold] at hok
    subst hok
    simp [perNameCombine]
  | cons i rest ih =>
    intro acc res hok nm
    cases hl : acc.lookup i.name with
    | none =>
      rw [combineFold_cons_none _ _ _ hl] at hok
      have hstep := ih _ _ hok nm
      by_cases hnm : i.name = nm
      · have hfil : (i :: rest).filter (fun x => x.name == nm) =
            i :: rest.filter (fun x => x.name == nm) := by
          simp [List.filter_cons, hnm]
        rw [hfil]
        subst hnm
        rw [hl]
        show perNameCombine (some i.copy) (rest.filter (fun x => x.name == i.name)) = _
        rw [← lookup_dictSet_self i.name i.copy acc]
        exact hstep
      · have hfil : (i :: rest).filter (fun x => x.name == nm) =
            rest.filter (fun x => x.name == nm) := by
          simp [List.filter_cons, hnm]
        rw [hfil]
        rw [← lookup_dictSet_ne i.name nm i.copy acc (fun e => hnm e.symm)]
        exact hstep
    | some e =>
      cases hadd : Ingredient.add e i with
      | error msg =>
        rw [combineFold_cons_some_err _ _ _ _ _ hl hadd] at hok
        exact absurd hok (by simp)
      | ok c =>
        rw [combineFold_cons_some_ok _ _ _ _ _ hl hadd] at hok
        have hstep := ih _ _ hok nm
        by_cases hnm : i.name = nm
        · have hfil : (i :: rest).filter (fun x => x.name == nm) =
              i :: rest.filter (fun x => x.name == nm) := by
            simp [List.filter_cons, hnm]
          rw [hfil]
          subst hnm
          rw [hl]
          show (match stepName (some e) i with
            | .ok cur => perNameCombine cur (rest.filter (fun x => x.name == i.name))
            | .error e2 => .error e2) = _
          have hsn : stepName (some e) i = .ok (some c) := by
            simp [stepName, hadd]
          rw [hsn]
          rw [← lookup_dictSet_self i.name c acc]
          exact hstep
        · have hfil : (i :: rest).filter (fun x => x.name == nm) =
              rest.filter (fun x => x.name == nm) := by
            simp [List.filter_cons, hnm]
          rw [hfil]
          rw [← lookup_dictSet_ne i.name nm c acc (fun e2 => hnm e2.symm)]
          exact hstep

theorem perNameCombine_some_spec (l : List Ingredient) :
    ∀ (e : Ingredient) (res : Option Ingredient),
    perNameCombine (some e) l = .ok res →
    ∃ e2, res = some e2 ∧ e2.name = e.name ∧ e2.quantity.unit = e.quantity.unit := by
  induction l with
  | nil =>
    intro e res hok
    simp [perNameCombine] at hok
    exact ⟨e, hok.symm, rfl, rfl⟩
  | cons i rest ih =>
    intro e res hok
    rcases hadd : Ingredient.add e i with msg | c
    · have : perNameCombine (some e) (i :: rest) = .error msg := by
        simp [perNameCombine, stepName, hadd]
      rw [this] at hok
      exact absurd hok (by simp)
    · have hred : perNameCombine (some e) (i :: rest) = perNameCombine (some c) rest := by
        simp [perNameCombine, stepName, hadd]
      rw [hred] at hok
      obtain ⟨hn, q, hq, hc⟩ := Ingredient.add_ok hadd
      obtain ⟨e2, h1, h2, h3⟩ := ih c res hok
      refine ⟨e2, h1, ?_, ?_⟩
      · rw [h2, hc]
      · rw [h3, hc]
        show q.unit = e.quantity.unit
        exact Quantity.add_ok_unit hq

theorem perNameCombine_none_head (i : Ingredient) (rest : List Ingredient)
    (res : Option Ingredient) (hok : perNameCombine none (i :: rest) = .ok res) :
    ∃ e2, res = some e2 ∧ e2.name = i.name ∧ e2.quantity.unit = i.quantity.unit := by
  have hred : perNameCombine none (i :: rest) = perNameCombine (some i.copy) rest := by
    simp [perNameCombine, stepName]
  rw [hred] at hok
  simpa [ingredient_copy_id] using perNameCombine_some_spec rest i.copy res hok

/-- C1 counterexample: an Ingredient with the mass unit OUNCE does not
round-trip through to_dict and from_dict: the stored unit string "ounce" is
matched against VolumeUnit first, so the rebuilt Ingredient carries the volume
unit OUNCE and is not equal to the original. -/
theorem C1_counterexample :
    Ingredient.from_dict (Ingredient.to_dict ⟨"chicken", ⟨.mass .OUNCE, 1⟩⟩) =
      .ok ⟨"chicken", ⟨.volume .OUNCE, 1⟩⟩ ∧
    (Ingredient.mk "chicken" ⟨.volume .OUNCE, 1⟩ ≠ ⟨"chicken", ⟨.mass .OUNCE, 1⟩⟩) := by
  constructor
  · decide
  · decide

/-- C1 amended: for every Ingredient whose unit is not the mass unit OUNCE
(any name, any amount), from_dict of to_dict with flatten False rebuilds an
equal Ingredient. -/
theorem C1_round_trip (i : Ingredient) (h : i.quantity.unit ≠ .mass .OUNCE) :
    Ingredient.from_dict (Ingredient.to_dict i) = .ok i := by
  obtain ⟨nm, u, amt⟩ := i
  cases u with
  | count c => cases c; rfl
  | volume v => cases v <;> rfl
  | mass m =>
    cases m
    case OUNCE => exact absurd rfl h
    all_goals rfl

theorem C1_round_trip_witness :
    Ingredient.from_dict (Ingredient.to_dict ⟨"flour", ⟨.mass .GRAM, 250⟩⟩) =
      .ok ⟨"flour", ⟨.mass .GRAM, 250⟩⟩ :=
  C1_round_trip ⟨"flour", ⟨.mass .GRAM, 250⟩⟩ (by decide)

/-- C2 counterexample: after the three apple insertions of the scenario,
remove_recipe r2 leaves apple at amount 4 (the r1 and default-bucket
contributions), not at the claimed amount 2. -/
theorem C2_counterexample :
    (threeAppleAdds.remove_recipe "r2").ingredients =
      .ok [("apple", ⟨"apple", ⟨.count .ITEM, 4⟩⟩)] ∧ (4 : ℚ) ≠ 2 := by
  constructor
  · with_unfolding_all decide
  · decide

/-- C2 amended: after the scenario insertions plus a banana that exists only
in bucket r2, remove_recipe r2 leaves a combined view holding exactly apple at
amount 4 in unit item (the r1 and default-bucket contributions), and banana is
absent. -/
theorem C2_remove_recipe :
    (applesAndBanana.remove_recipe "r2").ingredients =
      .ok [("apple", ⟨"apple", ⟨.count .ITEM, 4⟩⟩)] ∧
    ((applesAndBanana.remove_recipe "r2").ingredients).map
      (fun l => l.lookup "banana") = .ok none := by
  constructor
  · with_unfolding_all decide
  · with_unfolding_all decide

/-- C4: for Quantities of different unit kinds, add, sub and convert all fail
with a ValueError, whatever the amounts are. -/
theorem C4_kind_rejection (a b : Quantity) (h : a.unit.kind ≠ b.unit.kind) :
    (∃ e1, Quantity.add a b = .error e1) ∧
    (∃ e2, Quantity.sub a b = .error e2) ∧
    (∃ e3, Quantity.convert a b = .error e3) := by
  exact ⟨⟨"Cannot add " ++ a.unit.kind.className ++ " to " ++ b.unit.kind.className,
      by simp [Quantity.add, h]⟩,
    ⟨"Cannot subtract " ++ b.unit.kind.className ++ " from " ++ a.unit.kind.className,
      by simp [Quantity.sub, h]⟩,
    ⟨"Cannot convert " ++ a.unit.kind.className ++ " to " ++ b.unit.kind.className,
      by simp [Quantity.convert, h]⟩⟩

theorem C4_kind_rejection_witness :
    (∃ e1, Quantity.add ⟨.volume .CUP, 1⟩ ⟨.mass .POUND, 2⟩ = .error e1) ∧
    (∃ e2, Quantity.sub ⟨.volume .CUP, 1⟩ ⟨.mass .POUND, 2⟩ = .error e2) ∧
    (∃ e3, Quantity.convert ⟨.volume .CUP, 1⟩ ⟨.mass .POUND, 2⟩ = .error e3) :=
  C4_kind_rejection ⟨.volume .CUP, 1⟩ ⟨.mass .POUND, 2⟩ (by decide)

/-- C5: adding equal-unit Quantities sums the amounts directly with no
conversion-table lookup; adding same-kind different-unit Quantities converts
the right operand through convert_unit (the table) into the left unit and then
sums; one cup plus two tablespoons is 9/8 cup, that is 1.125 cup. -/
theorem C5_add_semantics :
    (∀ a b : Quantity, a.unit = b.unit →
      Quantity.add a b = .ok ⟨a.unit, a.amount + b.amount⟩) ∧
    (∀ a b : Quantity, a.unit.kind = b.unit.kind → a.unit ≠ b.unit →
      ∃ c, convert_unit b.unit a.unit b.amount = .ok c ∧
        Quantity.add a b = .ok ⟨a.unit, a.amount + c⟩) ∧
    Quantity.add ⟨.volume .CUP, 1⟩ ⟨.volume .TABLESPOON, 2⟩ =
      .ok ⟨.volume .CUP, 9 / 8⟩ := by
  refine ⟨Quantity.add_same_unit, Quantity.add_diff_unit, ?_⟩
  with_unfolding_all decide

theorem C5_add_semantics_witness :
    Quantity.add ⟨.volume .CUP, 1⟩ ⟨.volume .CUP, 2⟩ = .ok ⟨.volume .CUP, 1 + 2⟩ ∧
    ∃ c, convert_unit (.volume .TABLESPOON) (.volume .CUP) 2 = .ok c ∧
      Quantity.add ⟨.volume .CUP, 1⟩ ⟨.volume .TABLESPOON, 2⟩ = .ok ⟨.volume .CUP, 1 + c⟩ :=
  ⟨C5_add_semantics.1 ⟨.volume .CUP, 1⟩ ⟨.volume .CUP, 2⟩ rfl,
   C5_add_semantics.2.1 ⟨.volume .CUP, 1⟩ ⟨.volume .TABLESPOON, 2⟩ rfl (by decide)⟩

/-- C6: Ingredient addition fails whenever the names differ (exact string
comparison), and whenever the names agree and the quantity addition succeeds
it returns the left name with the combined Quantity, carried in the unit of the left
operand. -/
theorem C6_ingredient_add :
    (∀ a b : Ingredient, a.name ≠ b.name → ∃ e, Ingredient.add a b = .error e) ∧
    (∀ a b : Ingredient, a.name = b.name →
      ∀ q, Quantity.add a.quantity b.quantity = .ok q →
        Ingredient.add a b = .ok ⟨a.name, q⟩ ∧ q.unit = a.quantity.unit) := by
  constructor
  · intro a b h
    exact ⟨"Cannot add ingredients with different names: " ++ a.name ++ " and " ++ b.name,
      by simp [Ingredient.add, h]⟩
  · intro a b h q hq
    refine ⟨?_, Quantity.add_ok_unit hq⟩
    simp [Ingredient.add, h, hq]

theorem C6_ingredient_add_witness :
    (∃ e, Ingredient.add ⟨"apple", ⟨.count .ITEM, 1⟩⟩ ⟨"pear", ⟨.count .ITEM, 1⟩⟩ =
      .error e) ∧
    (Ingredient.add ⟨"apple", ⟨.count .ITEM, 1⟩⟩ ⟨"apple", ⟨.count .ITEM, 2⟩⟩ =
      .ok ⟨"apple", ⟨.count .ITEM, 1 + 2⟩⟩ ∧
      (Quantity.mk (.count .ITEM) (1 + 2)).unit = .count .ITEM) :=
  ⟨C6_ingredient_add.1 ⟨"apple", ⟨.count .ITEM, 1⟩⟩ ⟨"pear", ⟨.count .ITEM, 1⟩⟩ (by decide),
   C6_ingredient_add.2 ⟨"apple", ⟨.count .ITEM, 1⟩⟩ ⟨"apple", ⟨.count .ITEM, 2⟩⟩ rfl
     ⟨.count .ITEM, 1 + 2⟩ (Quantity.add_same_unit _ _ rfl)⟩

/-- C7: Quantity equality holds exactly when the kinds, the units and the
amounts all agree; it never converts, so one cup and sixteen tablespoons are
not equal. -/
theorem C7_quantity_eq :
    (∀ a b : Quantity, Quantity.pyEq a b = true ↔
      (a.unit.kind = b.unit.kind ∧ a.unit = b.unit ∧ a.amount = b.amount)) ∧
    Quantity.pyEq ⟨.volume .CUP, 1⟩ ⟨.volume .TABLESPOON, 16⟩ = false := by
  constructor
  · intro a b
    constructor
    · intro h
      unfold Quantity.pyEq at h
      by_cases hk : a.unit.kind ≠ b.unit.kind
      · simp [hk] at h
      · push_neg at hk
        by_cases hu : a.unit = b.unit
        · simp [hk, hu] at h
          exact ⟨hk, hu, h⟩
        · simp [hk, hu] at h
    · rintro ⟨hk, hu, ha⟩
      simp [Quantity.pyEq, hk, hu, ha]
  · decide

theorem C7_quantity_eq_witness :
    Quantity.pyEq ⟨.volume .CUP, 1⟩ ⟨.volume .CUP, 1⟩ = true :=
  (C7_quantity_eq.1 ⟨.volume .CUP, 1⟩ ⟨.volume .CUP, 1⟩).mpr ⟨rfl, rfl, rfl⟩

/-- C9: for_recipe fails exactly when the bucket is absent or empty,
otherwise it returns a new list holding only that bucket; in particular
for_recipe of a missing name on the empty list raises. -/
theorem C9_for_recipe :
    (∀ (s : ShoppingList) (r : String),
      (s.recipe_ingredients.lookup r = none ∨ s.recipe_ingredients.lookup r = some []) ↔
        ∃ e, s.for_recipe r = .error e) ∧
    (∀ (s : ShoppingList) (r : String) (b : Bucket),
      s.recipe_ingredients.lookup r = some b → b ≠ [] →
        s.for_recipe r = .ok ⟨[(r, b)]⟩) ∧
    emptyList.for_recipe "missing" = .error "No ingredients found for recipe: missing" := by
  refine ⟨fun s r => ⟨?_, ?_⟩, fun s r b hb hne => ?_, by decide⟩
  · rintro (h | h) <;>
      exact ⟨"No ingredients found for recipe: " ++ r,
        by simp [ShoppingList.for_recipe, h]⟩
  · rintro ⟨e, he⟩
    cases hl : s.recipe_ingredients.lookup r with
    | none => exact Or.inl rfl
    | some b =>
      cases b with
      | nil => exact Or.inr rfl
      | cons p rest => simp [ShoppingList.for_recipe, hl] at he
  · cases b with
    | nil => exact absurd rfl hne
    | cons p rest => simp [ShoppingList.for_recipe, hb]

theorem C9_for_recipe_witness :
    (ShoppingList.mk [("r1", [("apple", ⟨"apple", ⟨.count .ITEM, 2⟩⟩)])]).for_recipe "r1" =
      .ok ⟨[("r1", [("apple", ⟨"apple", ⟨.count .ITEM, 2⟩⟩)])]⟩ :=
  C9_for_recipe.2.1 ⟨[("r1", [("apple", ⟨"apple", ⟨.count .ITEM, 2⟩⟩)])]⟩ "r1"
    [("apple", ⟨"apple", ⟨.count .ITEM, 2⟩⟩)] (by decide) (by decide)
/-- C3: the scenario insertions combine to apple at amount 7 in unit item;
in general a successful combined view decomposes per name into the fold of
Ingredient addition over the occurrences of that name, taken in bucket-insertion
then name-insertion order, and a present entry carries the name and the unit
of the first-seen occurrence. -/
theorem C3_aggregation :
    threeAppleAdds.ingredients = .ok [("apple", ⟨"apple", ⟨.count .ITEM, 7⟩⟩)] ∧
    (∀ (s : ShoppingList) (res : List (String × Ingredient)), s.ingredients = .ok res →
      ∀ nm,
        perNameCombine none (s.flatIngredients.filter (fun i => i.name == nm)) =
          .ok (res.lookup nm) ∧
        (∀ ing, res.lookup nm = some ing →
          ∃ first rest2,
            s.flatIngredients.filter (fun i => i.name == nm) = first :: rest2 ∧
            ing.name = first.name ∧ ing.quantity.unit = first.quantity.unit)) := by
  constructor
  · with_unfolding_all decide
  · intro s res hok nm
    have hmain := combineFold_perName s.flatIngredients [] res hok nm
    refine ⟨hmain, ?_⟩
    intro ing hing
    rw [hing] at hmain
    cases hfil : s.flatIngredients.filter (fun i => i.name == nm) with
    | nil =>
      rw [hfil] at hmain
      simp [perNameCombine] at hmain
    | cons first rest2 =>
      rw [hfil] at hmain
      obtain ⟨e2, he2, hname, hunit⟩ := perNameCombine_none_head first rest2 _ hmain
      have hie : ing = e2 := by
        injection he2 with he3
      refine ⟨first, rest2, rfl, ?_, ?_⟩
      · rw [hie, hname]
      · rw [hie, hunit]

theorem C3_aggregation_witness :
    perNameCombine none
      (threeAppleAdds.flatIngredients.filter (fun i => i.name == "apple")) =
      .ok ((([("apple", Ingredient.mk "apple" ⟨.count .ITEM, 7⟩)] :
        List (String × Ingredient)).lookup "apple")) :=
  (C3_aggregation.2 threeAppleAdds [("apple", ⟨"apple", ⟨.count .ITEM, 7⟩⟩)]
    (by with_unfolding_all decide) "apple").1
theorem add_ingredient_args_err (s : ShoppingList) (name units : String) (amount : ℚ)
    (recipe_name msg : String)
    (hfa : Ingredient.from_args name units amount = .error msg) :
    s.add_ingredient name units amount recipe_name = (s, .error msg) := by
  simp [ShoppingList.add_ingredient, hfa]

theorem add_ingredient_bucket_new (s : ShoppingList) (name units : String) (amount : ℚ)
    (recipe_name : String) (ing : Ingredient)
    (hfa : Ingredient.from_args name units amount = .ok ing)
    (hl : s.recipe_ingredients.lookup recipe_name = none) :
    s.add_ingredient name units amount recipe_name =
      (⟨dictSet recipe_name (dictSet ing.name ing [])
          (dictSet recipe_name [] s.recipe_ingredients)⟩, .ok ()) := by
  simp [ShoppingList.add_ingredient, hfa, hl, lookup_dictSet_self]

theorem add_ingredient_new_name (s : ShoppingList) (name units : String) (amount : ℚ)
    (recipe_name : String) (ing : Ingredient) (b : Bucket)
    (hfa : Ingredient.from_args name units amount = .ok ing)
    (hl : s.recipe_ingredients.lookup recipe_name = some b)
    (hlk : b.lookup ing.name = none) :
    s.add_ingredient name units amount recipe_name =
      (⟨dictSet recipe_name (dictSet ing.name ing b) s.recipe_ingredients⟩, .ok ()) := by
  simp [ShoppingList.add_ingredient, hfa, hl, hlk]

theorem add_ingredient_combine_ok (s : ShoppingList) (name units : String) (amount : ℚ)
    (recipe_name : String) (ing existing c : Ingredient) (b : Bucket)
    (hfa : Ingredient.from_args name units amount = .ok ing)
    (hl : s.recipe_ingredients.lookup recipe_name = some b)
    (hlk : b.lookup ing.name = some existing)
    (hadd : Ingredient.add existing ing = .ok c) :
    s.add_ingredient name units amount recipe_name =
      (⟨dictSet recipe_name (dictSet ing.name c b) s.recipe_ingredients⟩, .ok ()) := by
  simp [ShoppingList.add_ingredient, hfa, hl, hlk, hadd]

theorem add_ingredient_combine_err (s : ShoppingList) (name units : String) (amount : ℚ)
    (recipe_name : String) (ing existing : Ingredient) (b : Bucket) (msg : String)
    (hfa : Ingredient.from_args name units amount = .ok ing)
    (hl : s.recipe_ingredients.lookup recipe_name = some b)
    (hlk : b.lookup ing.name = some existing)
    (hadd : Ingredient.add existing ing = .error msg) :
    s.add_ingredient name units amount recipe_name = (s, .error msg) := by
  simp [ShoppingList.add_ingredient, hfa, hl, hlk, hadd]

/-- C10: add_ingredient is atomic: whenever the call fails, the
recipe_ingredients state is exactly what it was before the call. -/
theorem C10_add_atomic (s : ShoppingList) (name units : String) (amount : ℚ)
    (recipe_name e : String)
    (hfail : (s.add_ingredient name units amount recipe_name).2 = .error e) :
    (s.add_ingredient name units amount recipe_name).1 = s := by
  cases hfa : Ingredient.from_args name units amount with
  | error msg =>
    rw [add_ingredient_args_err s name units amount recipe_name msg hfa]
  | ok ing =>
    cases hl : s.recipe_ingredients.lookup recipe_name with
    | none =>
      rw [add_ingredient_bucket_new s name units amount recipe_name ing hfa hl] at hfail
      simp at hfail
    | some b =>
      cases hlk : b.lookup ing.name with
      | none =>
        rw [add_ingredient_new_name s name units amount recipe_name ing b hfa hl hlk]
          at hfail
        simp at hfail
      | some existing =>
        cases hadd : Ingredient.add existing ing with
        | ok c =>
          rw [add_ingredient_combine_ok s name units amount recipe_name ing existing c b
            hfa hl hlk hadd] at hfail
          simp at hfail
        | error msg =>
          rw [add_ingredient_combine_err s name units amount recipe_name ing existing b
            msg hfa hl hlk hadd]

theorem C10_add_atomic_witness :
    ((ShoppingList.mk [("general", [("apple", ⟨"apple", ⟨.volume .CUP, 1⟩⟩)])]).add_ingredient
      "apple" "pound" 1 "general").1 =
      ⟨[("general", [("apple", ⟨"apple", ⟨.volume .CUP, 1⟩⟩)])]⟩ :=
  C10_add_atomic ⟨[("general", [("apple", ⟨"apple", ⟨.volume .CUP, 1⟩⟩)])]⟩
    "apple" "pound" 1 "general" "Cannot add VolumeUnit to MassUnit"
    (by with_unfolding_all decide)


/-- C8 witness at a concrete two-bucket state. -/
theorem C8_ingredients_projection_witness :
    (resolveList ⟨[⟨.count .ITEM, 2⟩, ⟨.count .ITEM, 3⟩]⟩
        ⟨[("r1", [("apple", ⟨"apple", 0⟩)]),
          ("r2", [("apple", ⟨"apple", 1⟩)])]⟩).ingredients =
      .ok (resolveMap
        ⟨[⟨.count .ITEM, 2⟩, ⟨.count .ITEM, 3⟩, ⟨.count .ITEM, 2⟩, ⟨.count .ITEM, 5⟩]⟩
        [("apple", ⟨"apple", 3⟩)]) ∧
    resolveList
        ⟨[⟨.count .ITEM, 2⟩, ⟨.count .ITEM, 3⟩, ⟨.count .ITEM, 2⟩, ⟨.count .ITEM, 5⟩]⟩
        ⟨[("r1", [("apple", ⟨"apple", 0⟩)]),
          ("r2", [("apple", ⟨"apple", 1⟩)])]⟩ =
      resolveList ⟨[⟨.count .ITEM, 2⟩, ⟨.count .ITEM, 3⟩]⟩
        ⟨[("r1", [("apple", ⟨"apple", 0⟩)]),
          ("r2", [("apple", ⟨"apple", 1⟩)])]⟩ ∧
    resolveList
        (Heap.write
          ⟨[⟨.count .ITEM, 2⟩, ⟨.count .ITEM, 3⟩, ⟨.count .ITEM, 2⟩, ⟨.count .ITEM, 5⟩]⟩
          3 ⟨.count .ITEM, 99⟩)
        ⟨[("r1", [("apple", ⟨"apple", 0⟩)]),
          ("r2", [("apple", ⟨"apple", 1⟩)])]⟩ =
      resolveList ⟨[⟨.count .ITEM, 2⟩, ⟨.count .ITEM, 3⟩]⟩
        ⟨[("r1", [("apple", ⟨"apple", 0⟩)]),
          ("r2", [("apple", ⟨"apple", 1⟩)])]⟩ := by
  have hmain := C8_ingredients_projection ⟨[⟨.count .ITEM, 2⟩, ⟨.count .ITEM, 3⟩]⟩
    ⟨[("r1", [("apple", ⟨"apple", 0⟩)]), ("r2", [("apple", ⟨"apple", 1⟩)])]⟩
    (by decide)
    ⟨[⟨.count .ITEM, 2⟩, ⟨.count .ITEM, 3⟩, ⟨.count .ITEM, 2⟩, ⟨.count .ITEM, 5⟩]⟩
    [("apple", ⟨"apple", 3⟩)] (by with_unfolding_all decide)
  exact ⟨hmain.1, hmain.2.1,
    hmain.2.2.2 ("apple", ⟨"apple", 3⟩) (by decide) ⟨.count .ITEM, 99⟩⟩

end ShopSpec
